import Mathlib

/-!
Verification development for the BuildMC dependency-resolution core
(`buildmc/api/dependency.py`, `buildmc/api/_pack_format_check.py`,
`buildmc/api/_project.py`).

The Python source is shallowly embedded: absolute filesystem paths are
lists of components, JSON values are an inductive type, mutable lists
with in-place deletion are modelled by explicit list states threaded
through fuel-indexed loops that mirror Python's `for i in range(n)`
semantics exactly (including the fact that `i -= 1` inside a `for`
loop has no effect, and that indexing a shrunk list raises
`IndexError`), and uncaught Python exceptions are `Except.error`.
-/

set_option autoImplicit false

namespace BuildMC

/-! ## Path model

An absolute, symlink-free filesystem path is a list of components.
`Path.resolve`-style normalisation removes `.`/empty components and
lets `..` pop the last component (at the root, `..` stays at the root),
matching `pathlib.Path.resolve(strict=False)` on a symlink-free tree.
-/

/-- An absolute path, as its list of components below the root. -/
abbrev FsPath := List String

/-- One step of lexical path normalisation. -/
def resolveStep (acc : FsPath) (c : String) : FsPath :=
  if c = "." ∨ c = "" then acc
  else if c = ".." then acc.dropLast
  else acc ++ [c]

/-- A name stored inside a ZIP archive: possibly absolute, with raw components
(which may include `..` or `.`). -/
structure ZipEntryName where
  absolute : Bool
  components : List String
deriving DecidableEq

/-- Lexical resolution of `(base / name).resolve()`: an absolute name ignores
the base (Python `Path(base) / "/x"` is `Path("/x")`). -/
def joinResolve (base : FsPath) (e : ZipEntryName) : FsPath :=
  e.components.foldl resolveStep (if e.absolute then [] else base)

/-- Whether `base` is a strict ancestor of `p`; this is exactly the Python
test `base in p.parents` for normalised absolute paths. -/
def properUnder (base p : FsPath) : Bool :=
  base.isPrefixOf p && decide (base.length < p.length)

/-! ## Archive unpack (`Dependency._handle_acquired_files`, lines 293–332)

For each archive member (directories filtered out beforehand) the code
computes `file_destination = (unpack_working_dir / name).resolve()`;
with an `archive_root` it first discards members not strictly under
`(unpack_working_dir / archive_root).resolve()` and re-roots the rest;
members whose (re-rooted) destination is not strictly under the unpack
working directory are skipped with a warning.  An extracted member is
materialised either via `archive.extract(name, file_destination)`
(no root: `ZipFile.extract` treats its second argument as a directory
and writes `file_destination / sanitize(name)`) or via a staging
extraction into the scratch cache `unpack2` followed by
`shutil.copy` to exactly `file_destination` (root case).
-/

/-- What the extraction loop does with one archive member. -/
inductive ExtractAction where
  /-- With an archive root: the member is not under the root; `continue`, no log. -/
  | skippedOutsideRoot
  /-- The destination escapes the unpack working directory; skipped with a warning. -/
  | skippedTraversal
  /-- No archive root: `archive.extract(name, dest)` runs, `dest` checked to be
  under the unpack working directory. -/
  | extractedNoRoot (dest : FsPath)
  /-- Archive root given: staged extraction into the `unpack2` scratch cache,
  then copied to exactly `dest`. -/
  | extractedViaStaging (dest : FsPath)
deriving DecidableEq

/-- `ZipFile.extract`/`_extract_member` sanitisation: drop drive/leading
separators and every `''`, `'.'`, `'..'` component of the member name. -/
def sanitizeMember (cs : List String) : List String :=
  cs.filter (fun c => ¬ (c = "" ∨ c = "." ∨ c = ".."))

/-- Lines 309–321 of `dependency.py` for a single archive member. -/
def entryAction (uwd : FsPath) (archiveRoot : Option (List String)) (e : ZipEntryName) :
    ExtractAction :=
  let dest := joinResolve uwd e
  match archiveRoot with
  | none =>
    if properUnder uwd dest then .extractedNoRoot dest else .skippedTraversal
  | some r =>
    let rootPath := joinResolve uwd ⟨false, r⟩
    if properUnder rootPath dest then
      let rerooted := uwd ++ dest.drop rootPath.length
      if properUnder uwd rerooted then .extractedViaStaging rerooted else .skippedTraversal
    else
      .skippedOutsideRoot

/-- The destination of a member after the optional archive-root re-rooting
(the path whose containment the loop checks). -/
def destAfterStrip (uwd : FsPath) (archiveRoot : Option (List String)) (e : ZipEntryName) :
    FsPath :=
  let dest := joinResolve uwd e
  match archiveRoot with
  | none => dest
  | some r =>
    let rootPath := joinResolve uwd ⟨false, r⟩
    if properUnder rootPath dest then uwd ++ dest.drop rootPath.length else dest

/-- Final file locations a member's extraction creates below the unpack
working directory (empty when the member is skipped). -/
def entryPlacements (uwd : FsPath) (archiveRoot : Option (List String)) (e : ZipEntryName) :
    List FsPath :=
  match entryAction uwd archiveRoot e with
  | .skippedOutsideRoot => []
  | .skippedTraversal => []
  | .extractedNoRoot dest => [dest ++ sanitizeMember e.components]
  | .extractedViaStaging dest => [dest]

/-- Scratch-cache staging writes of a member (the `unpack2` extraction in the
root case); these live in the build cache, not in the unpack directory. -/
def entryStagingWrites (unpack2 : FsPath) (uwd : FsPath) (archiveRoot : Option (List String))
    (e : ZipEntryName) : List FsPath :=
  match entryAction uwd archiveRoot e with
  | .extractedViaStaging _ => [unpack2 ++ sanitizeMember e.components]
  | _ => []

/-- All file writes performed while handling one member. -/
def entryWrites (unpack2 : FsPath) (uwd : FsPath) (archiveRoot : Option (List String))
    (e : ZipEntryName) : List FsPath :=
  entryStagingWrites unpack2 uwd archiveRoot e ++ entryPlacements uwd archiveRoot e

/-- Whether the member is skipped (no extraction at all). -/
def ExtractAction.isSkip : ExtractAction → Bool
  | .skippedOutsideRoot => true
  | .skippedTraversal => true
  | _ => false

/-! ## Version compatibility check (`_pack_format_check.py`)

`pack_format_compatible` reads `project.var_get('project/pack_format')`.
In `_project.py` that special variable returns `Project.__pack_format`,
which `Project.pack_format()` sets to a `Version` dataclass
(`util/_version_meta.py`), never to an `int`.
-/

/-- A JSON value (as produced by `json.load`). -/
inductive Json where
  | jnull
  | jbool (b : Bool)
  | jint (n : Int)
  | jstr (s : String)
  | jarr (xs : List Json)
  | jobj (fields : List (String × Json))

/-- Python `isinstance(x, int)` on a JSON value (`bool` is a subclass of `int`). -/
def Json.isInstInt : Json → Bool
  | .jint _ => true
  | .jbool _ => true
  | _ => false

/-- Numeric value of a JSON value known to satisfy `isInstInt`. -/
def Json.asInt : Json → Int
  | .jint n => n
  | .jbool b => if b then 1 else 0
  | _ => 0

/-- First binding of a key in a JSON object (our inputs carry no duplicate keys,
where `json.load` would keep the last). -/
def jsonGet (fields : List (String × Json)) (key : String) : Option Json :=
  match fields with
  | [] => none
  | (k, v) :: rest => if k = key then some v else jsonGet rest key

/-- The `util/_version_meta.py` `Version` dataclass. -/
structure VersionRec where
  packType : String
  versionName : String
  formatNumber : Int
deriving DecidableEq

/-- The value `project.var_get('project/pack_format')` can take: `None`
before `Project.pack_format()` ran, a `Version` dataclass afterwards.
`intV` is the value the check's own logic expects. -/
inductive PFVal where
  | noneV
  | intV (n : Int)
  | versionV (v : VersionRec)
deriving DecidableEq

/-- Python `isinstance(project_pack_format, int)` on a `PFVal`. -/
def PFVal.isInstInt : PFVal → Bool
  | .intV _ => true
  | _ => false

/-- The lookup `Project.var_get('project/pack_format')` (`_project.py`
lines 17–22 and 187–190): returns the `__pack_format` attribute. -/
def projectVarPackFormat (packFormat : Option VersionRec) : PFVal :=
  match packFormat with
  | none => .noneV
  | some v => .versionV v

/-- Outcomes of `pack_format_compatible`: `true` means the function returned
without calling `project.fail()`. -/
def pack_format_compatible (projectPackFormat : PFVal) (mcmeta : Option (List (String × Json))) :
    Bool :=
  -- lines 26–29: None or not isinstance(..., int)
  if projectPackFormat = .noneV ∨ ¬ projectPackFormat.isInstInt then false
  else
    match mcmeta with
    | none => false            -- lines 32–36: get_json returned None
    | some fields =>
      match jsonGet fields "pack" with
      | none => false          -- lines 39–43: 'pack' missing
      | some packProp =>
        match packProp with
        | .jobj packFields =>
          match jsonGet packFields "pack_format" with
          | none => false      -- lines 49–53
          | some pf =>
            if ¬ pf.isInstInt then false
            else
              let propertyPackFormat := pf.asInt
              let projectFormat := match projectPackFormat with
                                   | .intV n => n
                                   | _ => 0    -- unreachable: isInstInt held
              -- lines 58–94: parse supported_formats
              match jsonGet packFields "supported_formats" with
              | none =>
                -- lines 106–117 with supported_formats None
                decide (projectFormat = propertyPackFormat)
              | some sf =>
                let shape : Option (Int × Int) :=
                  if sf.isInstInt then some (sf.asInt, sf.asInt)
                  else match sf with
                    | .jarr [a, b] =>
                      if a.isInstInt ∧ b.isInstInt then some (a.asInt, b.asInt) else none
                    | .jobj sfFields =>
                      if sfFields.length = 2 then
                        match jsonGet sfFields "min_inclusive", jsonGet sfFields "max_inclusive" with
                        | some lo, some hi =>
                          if lo.isInstInt ∧ hi.isInstInt then some (lo.asInt, hi.asInt) else none
                        | _, _ => none
                      else none
                    | _ => none
                match shape with
                | none => false  -- lines 90–94: invalid property
                | some (lo, hi) =>
                  -- lines 97–103: manifest's own pack_format must lie in the range
                  if ¬ (lo ≤ propertyPackFormat ∧ propertyPackFormat ≤ hi) then false
                  -- lines 106–117: the project's format must lie in the range
                  else decide (lo ≤ projectFormat ∧ projectFormat ≤ hi)
        | _ =>
          -- a non-dict 'pack' value: 'pack_format' not in property_pack is
          -- falsy/raises for scalars; all paths end in project.fail()
          false

/-! ## Git acquisition with a specific commit (`Git.acquire`, lines 566–594)

The cheap-path condition is an `or`-chain over subprocess results.  Four
of its five disjuncts compare `run(...).returncode` with `0`; the fetch
disjunct (line 575) compares the `CompletedProcess` object itself with
`0`, and in Python `CompletedProcess != 0` is always `True`.
-/

/-- The git subprocess invocations of the specific-commit path. -/
inductive GitStep where
  | init
  | remoteAdd
  | fetch
  | checkoutFetchHead
  | submoduleUpdate
  | cloneFallback
  | checkoutCommit
deriving DecidableEq

/-- A term of the `or`-chain: either `run(...).returncode` (an `int`) or the
bare `CompletedProcess` returned by `run(...)`. -/
inductive PyRunTerm where
  | returncodeOf (rc : Int)
  | completedProcess (rc : Int)
deriving DecidableEq

/-- Python `term != 0`: an `int` compares numerically; a `CompletedProcess`
is never equal to the `int` `0`. -/
def pyNeZero : PyRunTerm → Bool
  | .returncodeOf rc => decide (rc ≠ 0)
  | .completedProcess _ => true

/-- Trace of one `Git.acquire` run with `checkout` set (given each step's
would-be return code). -/
structure GitTrace where
  stepsRun : List GitStep
  fallbackCloneRun : Bool
  failed : Bool
deriving DecidableEq

/-- The fallback branch (lines 584–594): full shallow clone, then explicit
checkout, short-circuiting on failure. -/
def gitFallback (rc : GitStep → Int) (done : List GitStep) : GitTrace :=
  if pyNeZero (.returncodeOf (rc .cloneFallback)) then
    { stepsRun := done ++ [.cloneFallback], fallbackCloneRun := true, failed := true }
  else if pyNeZero (.returncodeOf (rc .checkoutCommit)) then
    { stepsRun := done ++ [.cloneFallback, .checkoutCommit], fallbackCloneRun := true,
      failed := true }
  else
    { stepsRun := done ++ [.cloneFallback, .checkoutCommit], fallbackCloneRun := true,
      failed := false }

/-- Lines 571–594: evaluate the cheap-path `or`-chain with Python's
short-circuiting, falling back to a full clone when it is truthy.
The third disjunct is the bare `run(fetch...) != 0` comparison. -/
def gitAcquireWithCheckout (rc : GitStep → Int) : GitTrace :=
  if pyNeZero (.returncodeOf (rc .init)) then
    gitFallback rc [.init]
  else if pyNeZero (.returncodeOf (rc .remoteAdd)) then
    gitFallback rc [.init, .remoteAdd]
  else if pyNeZero (.completedProcess (rc .fetch)) then
    gitFallback rc [.init, .remoteAdd, .fetch]
  else if pyNeZero (.returncodeOf (rc .checkoutFetchHead)) then
    gitFallback rc [.init, .remoteAdd, .fetch, .checkoutFetchHead]
  else if pyNeZero (.returncodeOf (rc .submoduleUpdate)) then
    gitFallback rc [.init, .remoteAdd, .fetch, .checkoutFetchHead, .submoduleUpdate]
  else
    { stepsRun := [.init, .remoteAdd, .fetch, .checkoutFetchHead, .submoduleUpdate],
      fallbackCloneRun := false, failed := false }

/-! ## Dependency identities (`Local.identity`/`matches_identity` and friends)

An identity is a JSON dict with a `type` discriminator; we model it as a
record of the optional keys any variant can emit (`none` = key absent,
matching `dict.get(key)` returning `None`).
-/

/-- The identity dict persisted in `index.json`. -/
structure IdentityDict where
  typeName : Option String := none
  pathAbsolute : Option String := none
  pathRelative : Option String := none
  fileType : Option String := none
  archiveRoot : Option String := none
  urlField : Option String := none
  rootField : Option String := none
  sha256Field : Option String := none
  checkoutField : Option String := none
deriving DecidableEq

/-- The process-wide configuration that `Local.identity` reads
(`cfg.global_options.script_directory`). -/
structure GlobalCfg where
  scriptDirectory : FsPath
deriving DecidableEq

/-- The filesystem facts `Local.identity` consults: `Path.is_dir()`. -/
structure FsState where
  isDir : FsPath → Bool

/-- Configured fields of a `Local` dependency (the constructor resolves
`path` to an absolute path). -/
structure LocalCfg where
  path : FsPath
  archiveRoot : Option String := none
deriving DecidableEq

/-- Render an absolute path the way `str(Path)` does. -/
def pathStr (p : FsPath) : String :=
  "/" ++ String.intercalate "/" p

/-- Drop the longest common prefix of two paths. -/
def dropCommon : FsPath → FsPath → FsPath × FsPath
  | [], base => ([], base)
  | p, [] => (p, [])
  | a :: p, b :: base =>
    if a = b then dropCommon p base else (a :: p, b :: base)

/-- `os.path.relpath(path, start)` on normalised absolute paths: `..` for each
remaining component of `start`, then the remaining components of `path`
(`.` when the paths are equal). -/
def relpathStr (p base : FsPath) : String :=
  let (ptail, btail) := dropCommon p base
  let comps := btail.map (fun _ => "..") ++ ptail
  match comps with
  | [] => "."
  | cs => String.intercalate "/" cs

/-- `Local.identity` (lines 408–419): note the `self.path.is_dir()` filesystem
query deciding `file_type`, and that `archive_root` is only emitted for files. -/
def localIdentity (g : GlobalCfg) (fs : FsState) (c : LocalCfg) : IdentityDict :=
  let ft := if fs.isDir c.path then "directory" else "file"
  { typeName := some "local"
    pathAbsolute := some (pathStr c.path)
    pathRelative := some (relpathStr c.path g.scriptDirectory)
    fileType := some ft
    archiveRoot := if c.archiveRoot.isSome ∧ ft = "file" then c.archiveRoot else none }

/-- `Local.matches_identity` (lines 422–434). -/
def localMatchesIdentity (g : GlobalCfg) (fs : FsState) (c : LocalCfg)
    (idn : IdentityDict) : Bool :=
  if idn.typeName ≠ some "local" then false
  else
    let si := localIdentity g fs c
    (idn.pathAbsolute = si.pathAbsolute ∨ idn.pathRelative = si.pathRelative)
      ∧ idn.fileType = si.fileType
      ∧ idn.archiveRoot = si.archiveRoot

/-- Configured fields of a `URL` dependency. -/
structure UrlCfg where
  url : String
  root : Option String := none
  sha256Sum : Option String := none
deriving DecidableEq

/-- `URL.identity` (lines 480–492). -/
def urlIdentity (c : UrlCfg) : IdentityDict :=
  { typeName := some "url"
    urlField := some c.url
    rootField := c.root
    sha256Field := c.sha256Sum }

/-- `URL.matches_identity` (lines 496–506). -/
def urlMatchesIdentity (c : UrlCfg) (idn : IdentityDict) : Bool :=
  if idn.typeName ≠ some "url" then false
  else if idn.urlField = some c.url then
    let si := urlIdentity c
    si.rootField = idn.rootField ∧ si.sha256Field = idn.sha256Field
  else false

/-- Configured fields of a `Git` dependency. -/
structure GitCfg where
  url : String
  root : Option String := none
  checkout : Option String := none
deriving DecidableEq

/-- `Git.identity` (lines 605–617). -/
def gitIdentity (c : GitCfg) : IdentityDict :=
  { typeName := some "git"
    urlField := some c.url
    rootField := c.root
    checkoutField := c.checkout }

/-- `Git.matches_identity` (lines 620–628); the URL is not compared. -/
def gitMatchesIdentity (c : GitCfg) (idn : IdentityDict) : Bool :=
  if idn.typeName ≠ some "git" then false
  else
    let si := gitIdentity c
    si.rootField = idn.rootField ∧ si.checkoutField = idn.checkoutField

/-- A configured dependency variant. -/
inductive DepSource where
  | localDep (c : LocalCfg)
  | urlDep (c : UrlCfg)
  | gitDep (c : GitCfg)
deriving DecidableEq

/-- A configured dependency as the resolution algorithm sees it. -/
structure Dep where
  name : String
  doVersionCheck : Bool
  source : DepSource
deriving DecidableEq

/-- Virtual dispatch of `matches_identity`. -/
def depMatchesIdentity (g : GlobalCfg) (fs : FsState) (d : Dep) (idn : IdentityDict) : Bool :=
  match d.source with
  | .localDep c => localMatchesIdentity g fs c idn
  | .urlDep c => urlMatchesIdentity c idn
  | .gitDep c => gitMatchesIdentity c idn

/-! ## Dependency index (`DependencyIndex`)

On-disk state: the managed root's subdirectories, each with the content of
its hidden UUID marker file (`none` when the file is missing/unreadable),
and the persisted `index.json` entry list.  Uncaught Python exceptions are
`Except.error`: `shutil.rmtree` on a path that no longer exists raises
`FileNotFoundError`, indexing a list beyond its current length raises
`IndexError`.
-/

/-- A Python exception escaping the code under test. -/
inductive PyErr where
  | fileNotFound
  | indexOutOfRange
  | badZipFile
deriving DecidableEq

/-- A subdirectory of the managed root. -/
structure MDir where
  name : String
  uuidFile : Option String
deriving DecidableEq

/-- A persisted index entry (`entry.get('uuid')` may be absent). -/
structure Entry where
  name : String
  uuid : Option String
  identity : IdentityDict
deriving DecidableEq

/-- State of the directory scan: the `uuid_to_dir` dict (insertion-ordered
assoc list, value = directory name) and the directories still on disk. -/
structure ScanState where
  assoc : List (String × String)
  live : List String
deriving DecidableEq

/-- First value bound to a key in the assoc list. -/
def assocFind (u : String) : List (String × String) → Option String
  | [] => none
  | (k, v) :: rest => if k = u then some v else assocFind u rest

/-- Remove a key from the dict. -/
def assocErase (u : String) (l : List (String × String)) : List (String × String) :=
  l.filter (fun kv => kv.1 ≠ u)

/-- Lines 57–78: iterate over the managed root's subdirectories, reading each
UUID marker file.  Unreadable marker: delete the directory.  Duplicate UUID:
delete this directory, then the previously seen one — but the dict keeps the
stale binding; if the previously seen directory is already gone, the second
`rmtree` raises `OSError`, and the `except` handler's own
`rmtree(dependency)` then raises `FileNotFoundError` uncaught. -/
def scanDirs : List MDir → ScanState → Except PyErr ScanState
  | [], st => .ok st
  | d :: rest, st =>
    match d.uuidFile with
    | none => scanDirs rest { st with live := st.live.erase d.name }
    | some u =>
      match assocFind u st.assoc with
      | some prevName =>
        let live1 := st.live.erase d.name
        if prevName ∈ live1 then
          scanDirs rest { st with live := live1.erase prevName }
        else
          .error .fileNotFound
      | none => scanDirs rest { st with assoc := st.assoc ++ [(u, d.name)] }

/-- Lines 81–93: `for i in range(len(self.index))` over a list that shrinks
when orphaned entries are deleted (`i -= 1` in the source has no effect on a
`for` loop variable); once a deletion happened, a later iteration indexes past
the end and raises `IndexError`. -/
def indexLoop (assoc : List (String × String)) (cur : List Entry) :
    Nat → Nat → Except PyErr (List (String × String) × List Entry)
  | 0, _ => .ok (assoc, cur)
  | fuel + 1, i =>
    if h : i < cur.length then
      let e := cur.get ⟨i, h⟩
      match e.uuid with
      | some u =>
        if (assocFind u assoc).isSome then
          indexLoop (assocErase u assoc) cur fuel (i + 1)
        else
          indexLoop assoc (cur.eraseIdx i) fuel (i + 1)
      | none =>
        -- `None in uuid_to_dir` is False: the entry counts as orphaned
        indexLoop assoc (cur.eraseIdx i) fuel (i + 1)
    else
      .error .indexOutOfRange

/-- Lines 98–100: delete every directory left in the dict; `rmtree` raises
uncaught if the recorded directory was already deleted. -/
def orphanDirClean : List (String × String) → List String → Except PyErr (List String)
  | [], live => .ok live
  | (_, n) :: rest, live =>
    if n ∈ live then orphanDirClean rest (live.erase n)
    else .error .fileNotFound

/-- `DependencyIndex.__resolve_index` (lines 49–100): returns the surviving
directory names and the remaining index entries. -/
def resolveIndex (dirs : List MDir) (index : List Entry) :
    Except PyErr (List String × List Entry) :=
  match scanDirs dirs { assoc := [], live := dirs.map MDir.name } with
  | .error e => .error e
  | .ok st =>
    match indexLoop st.assoc index index.length 0 with
    | .error e => .error e
    | .ok (assoc1, index1) =>
      match orphanDirClean assoc1 st.live with
      | .error e => .error e
      | .ok live1 => .ok (live1, index1)

/-! ### Phase 2 (`DependencyIndex.resolve_dependencies`, lines 103–179)

Both matching passes are Python `for i in range(n)` loops that delete from
the lists they index; the `i -= 1` statements do not affect the loop
variable, so after every successful match the element that shifts into
slot `i` is skipped.  The identity-only pass additionally iterates `j`
over `range(len(to_be_resolved))` while indexing `to_be_mapped[j]`.
-/

/-- The name pass (lines 116–131): for the `i`-th configured dependency,
find the first remaining entry with the same name whose identity matches
(scanning continues past a name match with mismatched identity). -/
def namePass (g : GlobalCfg) (fs : FsState) :
    List Dep → List Entry → Nat → Nat → List Dep × List Entry
  | resolved, mapped, 0, _ => (resolved, mapped)
  | resolved, mapped, fuel + 1, i =>
    if h : i < resolved.length then
      let d := resolved.get ⟨i, h⟩
      match mapped.findIdx? (fun e =>
          decide (e.name = d.name) && depMatchesIdentity g fs d e.identity) with
      | some j => namePass g fs (resolved.eraseIdx i) (mapped.eraseIdx j) fuel (i + 1)
      | none => namePass g fs resolved mapped fuel (i + 1)
    else
      (resolved, mapped)

/-- Inner loop of the identity pass (lines 141–154): `j` ranges over
`range(len(to_be_resolved))` but indexes `to_be_mapped[j]`, raising
`IndexError` when the entry list is shorter. -/
def identityInner (g : GlobalCfg) (fs : FsState) (d : Dep) (mapped : List Entry) :
    Nat → Nat → Except PyErr (Option (Nat × Entry))
  | 0, _ => .ok none
  | bound + 1, j =>
    if h : j < mapped.length then
      let e := mapped.get ⟨j, h⟩
      if depMatchesIdentity g fs d e.identity then .ok (some (j, e))
      else identityInner g fs d mapped bound (j + 1)
    else
      .error .indexOutOfRange

/-- `shutil.move(managed/src, managed/dst)` on top-level managed directories:
moving a directory onto itself is a no-op; moving onto another existing
directory nests the source inside it (it leaves the top level); a missing
source raises. -/
def moveDir (dirs : List String) (src dst : String) : Except PyErr (List String) :=
  if src ∉ dirs then .error .fileNotFound
  else if src = dst then .ok dirs
  else if dst ∈ dirs then .ok (dirs.erase src)
  else .ok (dirs.erase src ++ [dst])

/-- The identity-only pass (lines 136–154); a match renames the managed
directory and the entry to the dependency's name (`config_to_entry` is
never read afterwards in the source, so pairs are not tracked). -/
def identityPass (g : GlobalCfg) (fs : FsState) :
    List Dep → List Entry → List String → Nat → Nat →
    Except PyErr (List Dep × List Entry × List String)
  | resolved, mapped, dirs, 0, _ => .ok (resolved, mapped, dirs)
  | resolved, mapped, dirs, fuel + 1, i =>
    if h : i < resolved.length then
      let d := resolved.get ⟨i, h⟩
      match identityInner g fs d mapped resolved.length 0 with
      | .error e => .error e
      | .ok none => identityPass g fs resolved mapped dirs fuel (i + 1)
      | .ok (some (j, e)) =>
        match moveDir dirs e.name d.name with
        | .error er => .error er
        | .ok dirs1 => identityPass g fs (resolved.eraseIdx i) (mapped.eraseIdx j) dirs1 fuel (i + 1)
    else
      .ok (resolved, mapped, dirs)

/-- Lines 159–161: delete the managed directory of every leftover entry
(`rmtree` with no existence guard — raises when the directory named by the
entry is not on disk); returns the surviving directories and the deleted
names, in order.  The entries themselves stay in `self.index`. -/
def staleClean : List Entry → List String → Except PyErr (List String × List String)
  | [], live => .ok (live, [])
  | e :: rest, live =>
    if e.name ∈ live then
      match staleClean rest (live.erase e.name) with
      | .error er => .error er
      | .ok (l, removed) => .ok (l, e.name :: removed)
    else
      .error .fileNotFound

/-- Lines 166–179: acquire each leftover dependency in order.  `acquireOk`
abstracts the acquisition outcome (a successful acquisition materialises
the managed directory when it does not already exist); on failure the
partially created directory is removed if present and resolution returns
immediately; a failed version check also returns immediately. -/
def acquireLoop (acquireOk vcOk : String → Bool) :
    List Dep → List String → List String → List String × List String × Bool
  | [], live, trace => (live, trace, false)
  | d :: rest, live, trace =>
    let trace1 := trace ++ [d.name]
    if acquireOk d.name then
      let live1 := if d.name ∈ live then live else live ++ [d.name]
      if d.doVersionCheck && ¬ vcOk d.name then (live1, trace1, true)
      else acquireLoop acquireOk vcOk rest live1 trace1
    else
      (live.erase d.name, trace1, true)

/-- Observable outcome of one `resolve_dependencies` run. -/
structure ResolveResult where
  dirs : List String
  indexAfterRepair : List Entry
  leftoverDeps : List Dep
  leftoverEntries : List Entry
  staleRemoved : List String
  acquired : List String
  failed : Bool
deriving DecidableEq

/-- `DependencyIndex.resolve_dependencies` (lines 103–179): Phase 1, the name
pass, the identity pass (only when both lists are non-empty), the stale
cleanup (only when no configured dependencies are left over), then the
acquisition loop for leftover configured dependencies. -/
def resolveDependencies (g : GlobalCfg) (fs : FsState) (deps : List Dep)
    (index : List Entry) (dirs : List MDir) (acquireOk vcOk : String → Bool) :
    Except PyErr ResolveResult :=
  match resolveIndex dirs index with
  | .error e => .error e
  | .ok pr =>
    let nm := namePass g fs deps pr.2 deps.length 0
    match (if 0 < nm.1.length ∧ 0 < nm.2.length
           then identityPass g fs nm.1 nm.2 pr.1 nm.1.length 0
           else .ok (nm.1, nm.2, pr.1)) with
    | .error e => .error e
    | .ok t =>
      match (if t.1.length = 0 ∧ 0 < t.2.1.length
             then staleClean t.2.1 t.2.2
             else .ok (t.2.2, [])) with
      | .error e => .error e
      | .ok u =>
        let out :=
          if 0 < t.1.length then acquireLoop acquireOk vcOk t.1 u.1 []
          else (u.1, [], false)
        .ok { dirs := out.1, indexAfterRepair := pr.2, leftoverDeps := t.1,
              leftoverEntries := t.2.1, staleRemoved := u.2,
              acquired := out.2.1, failed := out.2.2 }

/-! ## Unpack, validation and placement (`Dependency._handle_acquired_files`)
and `URL.acquire` (lines 280–357 and 470–477).

A file source is opened with `ZipFile(source)`: a malformed archive raises
`zipfile.BadZipFile`, which no surrounding handler catches.  A valid
archive is checked for `pack.mcmeta` by string comparison against the
member list, extracted (per `entryAction`), and the unpack directory then
revalidated for a `pack.mcmeta` regular file.  With no `archive_root`,
`archive.extract(name, file_destination)` treats `file_destination` as a
directory, so the member lands at `file_destination / sanitize(name)` and
`unpack_working_dir / 'pack.mcmeta'` ends up a directory, not a file.
-/

/-- Result of opening the acquired file with `ZipFile`. -/
inductive ZipOpen where
  | malformed
  | validArchive (entries : List ZipEntryName)

/-- The source handed to `_handle_acquired_files`. -/
inductive AcqSource where
  | archiveFile (zip : ZipOpen)
  | directoryTree (hasManifest : Bool)

/-- Outcome of `_handle_acquired_files` when no exception escapes:
whether `project.fail()` was called and whether a location was returned
(`located = false` models returning `None`). -/
structure HandleOutcome where
  failed : Bool
  located : Bool
deriving DecidableEq

/-- The archive member name `f'{archive_root}/pack.mcmeta'` (line 304). -/
def manifestMemberName (archiveRoot : Option (List String)) : List String :=
  (match archiveRoot with
   | none => []
   | some r => r) ++ ["pack.mcmeta"]

/-- Whether `p` exists as a regular file given the set of written files:
it was written, and nothing was written strictly below it. -/
def isFileAmong (writes : List FsPath) (p : FsPath) : Bool :=
  decide (p ∈ writes) && writes.all (fun w => ¬ properUnder p w)

/-- Lines 340–357: the already-acquired short-circuit, then the move/copy
(whose `shutil.Error` is caught and converted to a fail signal). -/
def placeFiles (destinationExists moveOk : Bool) : HandleOutcome :=
  if destinationExists then { failed := false, located := true }
  else if moveOk then { failed := false, located := true }
  else { failed := true, located := false }

/-- `Dependency._handle_acquired_files` (lines 280–357). -/
def handleAcquiredFiles (uwd : FsPath) (archiveRoot : Option (List String))
    (src : AcqSource) (destinationExists moveOk : Bool) : Except PyErr HandleOutcome :=
  match src with
  | .archiveFile .malformed =>
    -- `ZipFile(source)` raises `BadZipFile`; nothing catches it
    .error .badZipFile
  | .archiveFile (.validArchive entries) =>
    if ¬ entries.any (fun e =>
        (¬ e.absolute) && decide (e.components = manifestMemberName archiveRoot)) then
      .ok { failed := true, located := false }   -- lines 304–307
    else
      let writes := (entries.map (entryPlacements uwd archiveRoot)).flatten
      -- line 335 applied to `source = unpack_working_dir`
      if ¬ isFileAmong writes (uwd ++ ["pack.mcmeta"]) then
        .ok { failed := true, located := false }
      else
        .ok (placeFiles destinationExists moveOk)
  | .directoryTree hasManifest =>
    if ¬ hasManifest then .ok { failed := true, located := false }
    else .ok (placeFiles destinationExists moveOk)

/-- `URL.acquire` (lines 470–477): a failed download signals failure and
returns with `location` still `None`; otherwise the downloaded file is
handed to `_handle_acquired_files`. -/
def urlAcquire (downloadOk : Bool) (zip : ZipOpen) (uwd : FsPath)
    (archiveRoot : Option (List String)) (destinationExists moveOk : Bool) :
    Except PyErr HandleOutcome :=
  if ¬ downloadOk then .ok { failed := true, located := false }
  else handleAcquiredFiles uwd archiveRoot (.archiveFile zip) destinationExists moveOk

/-! ## Concrete states used by the claim theorems -/

/-- A fixed global configuration. -/
def gAny : GlobalCfg := { scriptDirectory := ["home", "project"] }

/-- A filesystem on which no queried path is a directory. -/
def fsAny : FsState := { isDir := fun _ => false }

/-- Four URL dependencies with distinct URLs, as left by a successful run. -/
def c1Deps : List Dep :=
  [ { name := "dep1", doVersionCheck := false, source := .urlDep { url := "https://example.org/a.zip" } },
    { name := "dep2", doVersionCheck := false, source := .urlDep { url := "https://example.org/b.zip" } },
    { name := "dep3", doVersionCheck := false, source := .urlDep { url := "https://example.org/c.zip" } },
    { name := "dep4", doVersionCheck := false, source := .urlDep { url := "https://example.org/d.zip" } } ]

/-- The index `save_index` wrote for `c1Deps` (same names, same identities,
fresh distinct UUIDs). -/
def c1Entries : List Entry :=
  [ { name := "dep1", uuid := some "uuid-1", identity := urlIdentity { url := "https://example.org/a.zip" } },
    { name := "dep2", uuid := some "uuid-2", identity := urlIdentity { url := "https://example.org/b.zip" } },
    { name := "dep3", uuid := some "uuid-3", identity := urlIdentity { url := "https://example.org/c.zip" } },
    { name := "dep4", uuid := some "uuid-4", identity := urlIdentity { url := "https://example.org/d.zip" } } ]

/-- The managed directories matching `c1Entries`. -/
def c1Dirs : List MDir :=
  [ { name := "dep1", uuidFile := some "uuid-1" },
    { name := "dep2", uuidFile := some "uuid-2" },
    { name := "dep3", uuidFile := some "uuid-3" },
    { name := "dep4", uuidFile := some "uuid-4" } ]

/-- Two managed directories sharing one UUID. -/
def c2Dirs : List MDir :=
  [ { name := "alpha", uuidFile := some "uuid-dup" },
    { name := "beta", uuidFile := some "uuid-dup" } ]

/-- One index entry pointing at the duplicated UUID. -/
def c2Entries : List Entry :=
  [ { name := "alpha", uuid := some "uuid-dup",
      identity := urlIdentity { url := "https://example.org/a.zip" } } ]

/-- Two configured dependencies that match no entry. -/
def c3Deps : List Dep :=
  [ { name := "alpha", doVersionCheck := false, source := .urlDep { url := "https://example.org/a.zip" } },
    { name := "beta", doVersionCheck := false, source := .urlDep { url := "https://example.org/b.zip" } } ]

/-- A single persisted entry of a different variant (matches neither). -/
def c3Entries : List Entry :=
  [ { name := "gamma", uuid := some "uuid-g",
      identity := gitIdentity { url := "https://example.org/r.git" } } ]

/-- The managed directory backing `c3Entries`. -/
def c3Dirs : List MDir := [ { name := "gamma", uuidFile := some "uuid-g" } ]

/-- One new configured dependency. -/
def c4Deps : List Dep :=
  [ { name := "newdep", doVersionCheck := false, source := .urlDep { url := "https://example.org/new.zip" } } ]

/-- One stale entry (matches nothing). -/
def c4Entries : List Entry :=
  [ { name := "stale", uuid := some "uuid-s",
      identity := urlIdentity { url := "https://example.org/old.zip" } } ]

/-- The managed directory backing `c4Entries`. -/
def c4Dirs : List MDir := [ { name := "stale", uuidFile := some "uuid-s" } ]

/-- The run outcome for the `c4` state. -/
def c4Result : ResolveResult :=
  { dirs := ["stale", "newdep"], indexAfterRepair := c4Entries,
    leftoverDeps := c4Deps, leftoverEntries := c4Entries,
    staleRemoved := [], acquired := ["newdep"], failed := false }

/-- Two orphaned index entries over an empty managed root. -/
def c5Entries : List Entry :=
  [ { name := "one", uuid := some "uuid-1",
      identity := urlIdentity { url := "https://example.org/a.zip" } },
    { name := "two", uuid := some "uuid-2",
      identity := urlIdentity { url := "https://example.org/b.zip" } } ]

/-- A dependency manifest declaring `pack_format: 61` and nothing else. -/
def mcmeta61 : List (String × Json) :=
  [("pack", .jobj [("pack_format", .jint 61)])]

/-- The configured fields of a Local dependency. -/
def c9Cfg : LocalCfg := { path := ["data", "packs", "mypack"] }

/-- A filesystem state where the configured path is a directory. -/
def c9FsDir : FsState := { isDir := fun p => decide (p = ["data", "packs", "mypack"]) }

/-- A filesystem state where the configured path is a plain file or absent. -/
def c9FsFile : FsState := { isDir := fun _ => false }

/-- Another non-directory filesystem state (some unrelated directory exists). -/
def c9FsOther : FsState := { isDir := fun p => decide (p = ["somewhere", "else"]) }

/-- The unpack working directory used in concrete extraction statements. -/
def uwdC : FsPath := ["root", "cache", "unpack"]

/-- The `unpack2` staging cache used in concrete extraction statements. -/
def unpack2C : FsPath := ["root", "cache", "unpack2"]

/-- A crafted traversal member escaping the unpack directory. -/
def evilEntry : ZipEntryName := { absolute := false, components := ["..", "evil.txt"] }

/-! ## Helper lemmas -/

theorem properUnder_iff (base p : FsPath) :
    properUnder base p = true ↔ ∃ suffix, suffix ≠ [] ∧ p = base ++ suffix := by
  constructor
  · intro h
    rw [properUnder, Bool.and_eq_true, decide_eq_true_eq] at h
    obtain ⟨hpre, hlen⟩ := h
    rw [List.isPrefixOf_iff_prefix] at hpre
    obtain ⟨s, rfl⟩ := hpre
    refine ⟨s, ?_, rfl⟩
    intro hnil
    simp [hnil] at hlen
  · rintro ⟨s, hs, rfl⟩
    rw [properUnder, Bool.and_eq_true, decide_eq_true_eq]
    constructor
    · rw [List.isPrefixOf_iff_prefix]
      exact ⟨s, rfl⟩
    · have : 0 < s.length := List.length_pos.mpr hs
      simp only [List.length_append]
      omega

theorem properUnder_append (base p q : FsPath) (h : properUnder base p = true) :
    properUnder base (p ++ q) = true := by
  rw [properUnder_iff] at h ⊢
  obtain ⟨s, hs, rfl⟩ := h
  exact ⟨s ++ q, by simp [hs], by simp⟩

theorem staleClean_removed (m : List Entry) (live : List String)
    (u : List String × List String)
    (h : staleClean m live = .ok u) : u.2 = m.map Entry.name := by
  induction m generalizing live u with
  | nil =>
    simp only [staleClean] at h
    cases h
    rfl
  | cons e rest ih =>
    simp only [staleClean] at h
    split at h
    · cases hrec : staleClean rest (live.erase e.name) with
      | error er => rw [hrec] at h; cases h
      | ok pr =>
        rw [hrec] at h
        cases h
        simp [ih _ _ hrec]
    · cases h

theorem entryAction_none_eq (uwd : FsPath) (e : ZipEntryName) :
    entryAction uwd none e =
      (if properUnder uwd (joinResolve uwd e) then .extractedNoRoot (joinResolve uwd e)
       else .skippedTraversal) := rfl

theorem entryAction_some_eq (uwd : FsPath) (r : List String) (e : ZipEntryName) :
    entryAction uwd (some r) e =
      (if properUnder (joinResolve uwd ⟨false, r⟩) (joinResolve uwd e) then
        (if properUnder uwd
              (uwd ++ (joinResolve uwd e).drop (joinResolve uwd ⟨false, r⟩).length) then
           .extractedViaStaging
             (uwd ++ (joinResolve uwd e).drop (joinResolve uwd ⟨false, r⟩).length)
         else .skippedTraversal)
       else .skippedOutsideRoot) := rfl

theorem destAfterStrip_none_eq (uwd : FsPath) (e : ZipEntryName) :
    destAfterStrip uwd none e = joinResolve uwd e := rfl

theorem destAfterStrip_some_eq (uwd : FsPath) (r : List String) (e : ZipEntryName) :
    destAfterStrip uwd (some r) e =
      (if properUnder (joinResolve uwd ⟨false, r⟩) (joinResolve uwd e) then
         uwd ++ (joinResolve uwd e).drop (joinResolve uwd ⟨false, r⟩).length
       else joinResolve uwd e) := rfl

theorem entryPlacements_eq (uwd : FsPath) (archiveRoot : Option (List String))
    (e : ZipEntryName) :
    entryPlacements uwd archiveRoot e =
      (match entryAction uwd archiveRoot e with
       | .skippedOutsideRoot => []
       | .skippedTraversal => []
       | .extractedNoRoot dest => [dest ++ sanitizeMember e.components]
       | .extractedViaStaging dest => [dest]) := rfl

theorem entryStagingWrites_eq (unpack2 uwd : FsPath) (archiveRoot : Option (List String))
    (e : ZipEntryName) :
    entryStagingWrites unpack2 uwd archiveRoot e =
      (match entryAction uwd archiveRoot e with
       | .extractedViaStaging _ => [unpack2 ++ sanitizeMember e.components]
       | _ => []) := rfl

/-! ## Claim theorems -/

/-- C1: the claimed idempotence fails.  After a successful run over four
unchanged URL dependencies, the next `resolve_dependencies` pass leaves the
fourth dependency unmatched (the matching loops skip the element that
shifts into the deleted slot) and invokes `acquire` on it, instead of
matching every configured dependency and acquiring none. -/
theorem c1_second_run_reacquires :
    resolveDependencies gAny fsAny c1Deps c1Entries c1Dirs (fun _ => true) (fun _ => true)
      = .ok { dirs := ["dep1", "dep2", "dep3", "dep4"], indexAfterRepair := c1Entries,
              leftoverDeps := [{ name := "dep4", doVersionCheck := false,
                                 source := .urlDep { url := "https://example.org/d.zip" } }],
              leftoverEntries := [{ name := "dep4", uuid := some "uuid-4",
                                    identity := urlIdentity { url := "https://example.org/d.zip" } }],
              staleRemoved := [], acquired := ["dep4"], failed := false } := by
  rfl

/-- C2: the Phase-1 bijection fails.  With two directories sharing one UUID
and one entry holding that UUID, `__resolve_index` deletes both directories
but the stale `uuid_to_dir` binding lets the entry claim the deleted
directory, so the pass completes with one remaining entry and zero
surviving directories. -/
theorem c2_duplicate_uuid_breaks_bijection :
    resolveIndex c2Dirs c2Entries = .ok ([], c2Entries) := by
  rfl

/-- C3: the identity-only pass does not compare each remaining configured
dependency against every remaining entry for lists of any lengths: its inner
loop runs `len(to_be_resolved)` times while indexing `to_be_mapped`, so two
leftover dependencies against one leftover entry raise an uncaught
`IndexError`. -/
theorem c3_identity_pass_raises :
    resolveDependencies gAny fsAny c3Deps c3Entries c3Dirs (fun _ => true) (fun _ => true)
      = .error .indexOutOfRange := by
  rfl

/-- C5: consistency repair is not exception-free.  Two orphaned index
entries over an empty managed root make the entry-resolution loop delete
the first entry and then index the shrunk list out of range: an uncaught
`IndexError`, not a repair-with-warning. -/
theorem c5_orphaned_entries_raise :
    resolveIndex [] c5Entries = .error .indexOutOfRange := by
  rfl

/-- C6: the compatibility check cannot pass in the integrated program.
`Project.pack_format` stores a `Version` dataclass, and
`var_get('project/pack_format')` hands that dataclass to
`pack_format_compatible`, whose `isinstance(..., int)` test fails, so the
claimed passing scenario (project format 61, manifest `pack_format: 61`,
no `supported_formats`) is rejected — while the same check fed the integer
61 the repository's own test expects would pass, and 60 would fail. -/
theorem c6_version_object_never_passes :
    pack_format_compatible
        (projectVarPackFormat (some { packType := "data", versionName := "1.21.4", formatNumber := 61 }))
        (some mcmeta61) = false
    ∧ pack_format_compatible (.intV 61) (some mcmeta61) = true
    ∧ pack_format_compatible (.intV 60) (some mcmeta61) = false := by
  decide

/-- C7: the cheap path can never succeed.  Even when every git step returns
code 0, the fetch disjunct compares the `CompletedProcess` object itself
with `0` (always unequal in Python), so the chain is truthy after the
fetch: `checkout FETCH_HEAD` and the submodule update never run and the
full shallow clone fallback is always performed. -/
theorem c7_full_clone_always_runs :
    gitAcquireWithCheckout (fun _ => 0)
      = { stepsRun := [.init, .remoteAdd, .fetch, .cloneFallback, .checkoutCommit],
          fallbackCloneRun := true, failed := false } := by
  decide

/-- C8: `acquire` is not total.  A URL dependency whose download succeeds
but yields a non-ZIP byte stream makes `ZipFile(source)` raise
`zipfile.BadZipFile`, which no handler catches, instead of signalling the
shared fail flag; a failed download, by contrast, is handled (fail signal
set, `location` left `None`). -/
theorem c8_malformed_archive_raises :
    urlAcquire true .malformed uwdC none false true = .error .badZipFile
    ∧ urlAcquire false .malformed uwdC none false true
        = .ok { failed := true, located := false } := by
  constructor
  · rfl
  · rfl

/-- C9 counterexample: the claim fails on the code.  `Local.identity()`
calls `self.path.is_dir()`: with identical configured fields, a run where
the configured path is a directory and a run where it is a plain file (or
absent) yield different identity values. -/
theorem c9_identity_reads_filesystem :
    localIdentity gAny c9FsDir c9Cfg ≠ localIdentity gAny c9FsFile c9Cfg := by
  decide

/-- C9 amended: `Local.identity()` is a function of the configured fields
and of the single filesystem fact `path.is_dir()`.  Two calls agree
exactly when that bit agrees (so a path seen as a plain file and as absent
give equal identities, while directory versus non-directory always
differ), and `matches_identity` then agrees on every persisted identity. -/
theorem c9_identity_function_of_isdir (g : GlobalCfg) (c : LocalCfg) (fs1 fs2 : FsState) :
    (fs1.isDir c.path = fs2.isDir c.path →
       localIdentity g fs1 c = localIdentity g fs2 c
       ∧ ∀ idn, localMatchesIdentity g fs1 c idn = localMatchesIdentity g fs2 c idn)
    ∧ (fs1.isDir c.path ≠ fs2.isDir c.path →
       localIdentity g fs1 c ≠ localIdentity g fs2 c) := by
  constructor
  · intro h
    have hid : localIdentity g fs1 c = localIdentity g fs2 c := by
      unfold localIdentity
      rw [h]
    refine ⟨hid, fun idn => ?_⟩
    unfold localMatchesIdentity
    rw [hid]
  · intro h heq
    apply h
    have hft : (localIdentity g fs1 c).fileType = (localIdentity g fs2 c).fileType := by
      rw [heq]
    simp only [localIdentity] at hft
    cases hb1 : fs1.isDir c.path <;> cases hb2 : fs2.isDir c.path <;>
      rw [hb1, hb2] at hft <;> simp at hft ⊢

/-- C9 amended, witnessed at concrete states: a run where the path is a
plain file and a run where it is absent (a different non-directory
filesystem) produce the same identity value. -/
theorem c9_identity_function_of_isdir_witness :
    localIdentity gAny c9FsFile c9Cfg = localIdentity gAny c9FsOther c9Cfg :=
  ((c9_identity_function_of_isdir gAny c9Cfg c9FsFile c9FsOther).1 (by decide)).1

/-- C4 counterexample: a completed run with one stale entry and one new
configured dependency.  The stale entry is left over (`leftoverEntries`),
yet its managed directory `stale` is still on disk at the end and the
stale-cleanup step deleted nothing, because the cleanup only runs when no
configured dependencies are left waiting to be acquired. -/
theorem c4_stale_dir_survives :
    resolveDependencies gAny fsAny c4Deps c4Entries c4Dirs (fun _ => true) (fun _ => true)
      = .ok c4Result
    ∧ c4Result.leftoverEntries ≠ [] ∧ c4Result.staleRemoved = []
    ∧ "stale" ∈ c4Result.dirs := by
  refine ⟨by rfl, by decide, by decide, by decide⟩

/-- C4 amended: leftover index entries have their managed directories
deleted only in runs where no configured dependencies are left over after
the two matching passes; whenever configured dependencies remain to be
acquired, the stale-cleanup step deletes nothing, and when none remain it
deletes exactly the leftover entries' directories (in order). -/
theorem c4_stale_cleanup_gated (g : GlobalCfg) (fs : FsState) (deps : List Dep)
    (index : List Entry) (dirs : List MDir) (acquireOk vcOk : String → Bool)
    (r : ResolveResult)
    (h : resolveDependencies g fs deps index dirs acquireOk vcOk = .ok r) :
    (r.leftoverDeps ≠ [] → r.staleRemoved = [])
    ∧ (r.leftoverDeps = [] → r.staleRemoved = r.leftoverEntries.map Entry.name) := by
  unfold resolveDependencies at h
  split at h
  · cases h
  · dsimp only at h
    split at h
    · cases h
    · rename_i pr t hip
      split at h
      · cases h
      · rename_i u hst
        cases h
        split at hst
        · rename_i hguard
          constructor
          · intro hne
            exfalso
            exact hne (List.length_eq_zero.mp hguard.1)
          · intro _
            exact staleClean_removed t.2.1 t.2.2 u hst
        · rename_i hguard
          cases hst
          constructor
          · intro _
            rfl
          · intro hempty
            have ht1 : t.1 = [] := hempty
            have hm : t.2.1 = [] := by
              by_contra hne
              exact hguard ⟨by simp [ht1], List.length_pos.mpr hne⟩
            show ([] : List String) = t.2.1.map Entry.name
            simp [hm]

/-- C4 amended, witnessed at the concrete counterexample state. -/
theorem c4_stale_cleanup_gated_witness :
    (c4Result.leftoverDeps ≠ [] → c4Result.staleRemoved = [])
    ∧ (c4Result.leftoverDeps = [] →
        c4Result.staleRemoved = c4Result.leftoverEntries.map Entry.name) :=
  c4_stale_cleanup_gated gAny fsAny c4Deps c4Entries c4Dirs
    (fun _ => true) (fun _ => true) c4Result (by rfl)

/-- C10: archive containment.  Any member whose destination, after the
optional archive-root re-rooting, does not resolve strictly under the
unpack working directory is skipped — with the traversal warning whenever
no archive root is configured (with a root, out-of-root members are
silently discarded before re-rooting) — and produces no file write at all,
neither a placement nor a staging write; and every placement any member
does produce lies strictly under the unpack working directory. -/
theorem c10_traversal_members_never_extracted (uwd unpack2 : FsPath)
    (archiveRoot : Option (List String)) (e : ZipEntryName) :
    (properUnder uwd (destAfterStrip uwd archiveRoot e) = false →
       (entryAction uwd archiveRoot e).isSkip = true
       ∧ entryWrites unpack2 uwd archiveRoot e = []
       ∧ (archiveRoot = none → entryAction uwd archiveRoot e = .skippedTraversal))
    ∧ (∀ p ∈ entryPlacements uwd archiveRoot e, properUnder uwd p = true) := by
  cases archiveRoot with
  | none =>
    cases hc : properUnder uwd (joinResolve uwd e) with
    | true =>
      constructor
      · intro hout
        rw [destAfterStrip_none_eq, hc] at hout
        cases hout
      · intro p hp
        rw [entryPlacements_eq, entryAction_none_eq, hc] at hp
        simp only [if_true, List.mem_singleton] at hp
        subst hp
        exact properUnder_append _ _ _ hc
    | false =>
      have hact : entryAction uwd none e = .skippedTraversal := by
        rw [entryAction_none_eq, hc]
        rfl
      constructor
      · intro _
        refine ⟨?_, ?_, fun _ => hact⟩
        · rw [hact]
          rfl
        · rw [entryWrites, entryStagingWrites_eq, entryPlacements_eq, hact]
          rfl
      · intro p hp
        rw [entryPlacements_eq, hact] at hp
        cases hp
  | some r =>
    cases hroot : properUnder (joinResolve uwd ⟨false, r⟩) (joinResolve uwd e) with
    | true =>
      cases hc : properUnder uwd
          (uwd ++ (joinResolve uwd e).drop (joinResolve uwd ⟨false, r⟩).length) with
      | true =>
        constructor
        · intro hout
          rw [destAfterStrip_some_eq, hroot] at hout
          simp only [if_true] at hout
          rw [hc] at hout
          cases hout
        · intro p hp
          rw [entryPlacements_eq, entryAction_some_eq, hroot, hc] at hp
          simp only [if_true, List.mem_singleton] at hp
          subst hp
          exact hc
      | false =>
        have hact : entryAction uwd (some r) e = .skippedTraversal := by
          rw [entryAction_some_eq, hroot, hc]
          rfl
        constructor
        · intro _
          refine ⟨?_, ?_, fun hn => by cases hn⟩
          · rw [hact]
            rfl
          · rw [entryWrites, entryStagingWrites_eq, entryPlacements_eq, hact]
            rfl
        · intro p hp
          rw [entryPlacements_eq, hact] at hp
          cases hp
    | false =>
      have hact : entryAction uwd (some r) e = .skippedOutsideRoot := by
        rw [entryAction_some_eq, hroot]
        rfl
      constructor
      · intro _
        refine ⟨?_, ?_, fun hn => by cases hn⟩
        · rw [hact]
          rfl
        · rw [entryWrites, entryStagingWrites_eq, entryPlacements_eq, hact]
          rfl
      · intro p hp
        rw [entryPlacements_eq, hact] at hp
        cases hp

/-- C10, witnessed: the crafted member `../evil.txt` resolves outside the
unpack working directory, is skipped with the traversal warning, and
produces no write. -/
theorem c10_traversal_members_never_extracted_witness :
    (entryAction uwdC none evilEntry).isSkip = true
    ∧ entryWrites unpack2C uwdC none evilEntry = []
    ∧ entryAction uwdC none evilEntry = .skippedTraversal :=
  let h := (c10_traversal_members_never_extracted uwdC unpack2C none evilEntry).1 (by decide)
  ⟨h.1, h.2.1, h.2.2 rfl⟩

end BuildMC
